import Mathlib

/-!
Shallow embedding of `jetconf/rest_server.py` (the request-routing and
stream-lifecycle layer of the jetconf RESTCONF server).

The embedding covers:
* `HandlerList` with `register_handler`, `register_default_handler`,
  `get_handler` (ordered first-match route table with default fallback);
* `H2Protocol` per-connection state (`reqs_waiting_upload`, a dict from
  stream id to the buffered header `OrderedDict`);
* the event-processing logic of `data_received` (one step per h2 event:
  `RequestReceived`, `DataReceived`, `RemoteSettingsChanged`), together with
  `handle_get_delete` and `http_handle_upload`;
* the `send_empty` response primitive.

Handlers are opaque in the source (arbitrary callables); the embedding is
parameterised by a type `H` of handler references.  Handler invocation and
response emission are modelled as an emitted trace of `Action`s.  A Python
`KeyError` escaping a function (an uncaught dictionary lookup failure) is
modelled as the `Option.none` result of the corresponding step function.
-/

namespace RestServer

/-- Header lists as delivered by the h2 framing layer: ordered
(name, value) pairs, possibly with repeated names. -/
abbrev Headers := List (String × String)

/-- Request body bytes (`event.data`). -/
abbrev Bytes := List Nat

section AssocOps

variable {α : Type} {β : Type} [BEq α]

/-- Python dict lookup `m[k]` as an `Option`: the value of the first entry
whose key equals `k` (`none` models a `KeyError`). -/
def alookup (m : List (α × β)) (k : α) : Option β :=
  (m.find? (fun p => p.1 == k)).map Prod.snd

/-- Python dict assignment `m[k] = v`: if the key is present its value is
replaced in place (position preserved), otherwise the pair is appended. -/
def ainsert (m : List (α × β)) (k : α) (v : β) : List (α × β) :=
  if m.any (fun p => p.1 == k) then
    m.map (fun p => if p.1 == k then (k, v) else p)
  else
    m ++ [(k, v)]

/-- Python `m.pop(k)`: the removed value together with the remaining map,
or `none` (a `KeyError`) when the key is absent. -/
def apop (m : List (α × β)) (k : α) : Option (β × List (α × β)) :=
  match alookup m k with
  | none => none
  | some v => some (v, m.filter (fun p => !(p.1 == k)))

end AssocOps

/-- `OrderedDict(event.headers)`: Python dict construction from a pair list.
A repeated name keeps its first position and takes its last value. -/
def odict (hs : Headers) : Headers :=
  hs.foldl (fun m p => ainsert m p.1 p.2) []

/-- `url_split = path.split("?"); url_path = url_split[0]`: the part of the
path before the first question mark (the whole path when there is none). -/
def url_path_of (path : String) : String :=
  String.mk (path.data.takeWhile (fun c => c != '?'))

/-- The `HandlerList` route table: an ordered list of
(condition, handler) pairs plus an optional default handler.  Conditions are
the source's `HandlerConditionT = Callable[[str, str], bool]` predicates. -/
structure HandlerList (H : Type) where
  handlers : List ((String → String → Bool) × H)
  default_handler : Option H

variable {H : Type}

/-- `HandlerList.register_handler`: appends a (condition, handler) pair. -/
def register_handler (hl : HandlerList H) (condition : String → String → Bool)
    (handler : H) : HandlerList H :=
  { hl with handlers := hl.handlers ++ [(condition, handler)] }

/-- `HandlerList.register_default_handler`: sets (replaces) the default. -/
def register_default_handler (hl : HandlerList H) (handler : H) : HandlerList H :=
  { hl with default_handler := some handler }

/-- `HandlerList.get_handler`: scans the registered pairs in order and
returns the handler of the first condition accepting (method, path); when
none accepts, returns the default handler (which may be unset). -/
def get_handler (hl : HandlerList H) (method path : String) : Option H :=
  match hl.handlers.find? (fun h => h.1 method path) with
  | some h => some h.2
  | none => hl.default_handler

/-- Header values as they appear in `send_empty`'s response tuple: strings,
except `content-length` which the source passes as an integer. -/
inductive HVal where
  | s (v : String)
  | n (v : Nat)
deriving DecidableEq

/-- What `send_empty` pushes onto one stream: the response header block,
the body bytes (kept as the unencoded string; `encode()` is UTF-8, so the
byte length is `utf8ByteSize`), and the end-of-stream flag. -/
structure EmittedResponse where
  streamId : Nat
  headers : List (String × HVal)
  body : String
  endStream : Bool
deriving DecidableEq

/-- `H2Protocol.send_empty`: builds the minimal text response.  The source
reads the server name from `CONFIG_HTTP["SERVER_NAME"]`; it is a parameter
here. -/
def send_empty (serverName : String) (stream_id : Nat) (status_code : String)
    (status_msg : String) (status_in_body : Bool) : EmittedResponse :=
  let response : String :=
    if status_in_body then status_code ++ " " ++ status_msg ++ "\n" else ""
  { streamId := stream_id
    headers :=
      [(":status", HVal.s status_code),
       ("content-type", HVal.s "text/plain"),
       ("content-length", HVal.n response.utf8ByteSize),
       ("server", HVal.s serverName)]
    body := response
    endStream := true }

/-- The three h2 event kinds consumed by `H2Protocol.data_received`. -/
inductive H2Event where
  | requestReceived (streamId : Nat) (headers : Headers)
  | dataReceived (streamId : Nat) (data : Bytes)
  | remoteSettingsChanged
deriving DecidableEq

/-- The stream id an event is about (`none` for settings events). -/
def H2Event.stream : H2Event → Option Nat
  | .requestReceived sid _ => some sid
  | .dataReceived sid _ => some sid
  | .remoteSettingsChanged => none

/-- Observable actions of one processing step: a three-argument handler
call `h(self, stream_id, headers)`, a four-argument call
`h(self, stream_id, headers, data)`, a `send_empty` call, a `warn` log
line, or a settings acknowledgement.  (`self`, the session, is implicit.) -/
inductive Action (H : Type) where
  | invoke3 (h : H) (streamId : Nat) (headers : Headers)
  | invoke4 (h : H) (streamId : Nat) (headers : Headers) (data : Bytes)
  | sendEmpty (streamId : Nat) (code msg : String)
  | logWarn (msg : String)
  | ackSettings
deriving DecidableEq

/-- The stream id an action is addressed to (`none` for logs and acks). -/
def Action.stream : Action H → Option Nat
  | .invoke3 _ sid _ => some sid
  | .invoke4 _ sid _ _ => some sid
  | .sendEmpty sid _ _ => some sid
  | .logWarn _ => none
  | .ackSettings => none

/-- The routing-relevant state of one `H2Protocol` connection session:
the `reqs_waiting_upload` dict from stream id to buffered headers. -/
structure H2Protocol (H : Type) where
  reqs_waiting_upload : List (Nat × Headers)
deriving DecidableEq

/-- `H2Protocol.handle_get_delete`: strips the query string from
`headers[":path"]`, resolves `get_handler(headers[":method"], url_path)`,
and either invokes the handler with (self, stream_id, headers) or sends an
empty 400 response.  `none` models an uncaught `KeyError`. -/
def handle_get_delete (tbl : HandlerList H) (headers : Headers)
    (stream_id : Nat) : Option (List (Action H)) :=
  match alookup headers ":path" with
  | none => none
  | some path =>
    match alookup headers ":method" with
    | none => none
    | some m =>
      match get_handler tbl m (url_path_of path) with
      | some h => some [Action.invoke3 h stream_id headers]
      | none => some [Action.sendEmpty stream_id "400" "Bad Request"]

/-- `H2Protocol.http_handle_upload`: pops the pending request for the
stream (returning silently on `KeyError`), strips the query string,
resolves the route, and either invokes the handler with
(self, stream_id, headers, data) or sends an empty 400 response.  An
uncaught `KeyError` on the header lookups is `none`. -/
def http_handle_upload (tbl : HandlerList H) (st : H2Protocol H)
    (data : Bytes) (stream_id : Nat) :
    Option (H2Protocol H × List (Action H)) :=
  match apop st.reqs_waiting_upload stream_id with
  | none => some (st, [])
  | some (headers, rest) =>
    match alookup headers ":path" with
    | none => none
    | some path =>
      match alookup headers ":method" with
      | none => none
      | some m =>
        match get_handler tbl m (url_path_of path) with
        | some h =>
          some ({ reqs_waiting_upload := rest },
            [Action.invoke4 h stream_id headers data])
        | none =>
          some ({ reqs_waiting_upload := rest },
            [Action.sendEmpty stream_id "400" "Bad Request"])

/-- One iteration of the event loop in `H2Protocol.data_received`: on
`RequestReceived`, build `OrderedDict(event.headers)`, read `:method`, and
dispatch immediately (GET/DELETE), buffer the headers (PUT/POST), or warn;
on `DataReceived`, run `http_handle_upload`; on `RemoteSettingsChanged`,
acknowledge.  `none` models an uncaught `KeyError`. -/
def processEvent (tbl : HandlerList H) (st : H2Protocol H) (ev : H2Event) :
    Option (H2Protocol H × List (Action H)) :=
  match ev with
  | .requestReceived sid hdrs =>
    match alookup (odict hdrs) ":method" with
    | none => none
    | some m =>
      if m = "GET" ∨ m = "DELETE" then
        match handle_get_delete tbl (odict hdrs) sid with
        | none => none
        | some acts => some (st, acts)
      else if m = "PUT" ∨ m = "POST" then
        some ({ reqs_waiting_upload :=
                  ainsert st.reqs_waiting_upload sid (odict hdrs) }, [])
      else
        some (st, [Action.logWarn ("Unknown http method \"" ++ m ++ "\"")])
  | .dataReceived sid data => http_handle_upload tbl st data sid
  | .remoteSettingsChanged => some (st, [Action.ackSettings])

/-- The `for event in events` loop of `data_received`: events are processed
in order; an uncaught exception aborts the loop (and the whole call). -/
def processEvents (tbl : HandlerList H) :
    H2Protocol H → List H2Event → Option (H2Protocol H × List (Action H))
  | st, [] => some (st, [])
  | st, ev :: rest =>
    match processEvent tbl st ev with
    | none => none
    | some (st1, acts1) =>
      match processEvents tbl st1 rest with
      | none => none
      | some (st2, acts2) => some (st2, acts1 ++ acts2)

/-- Sample route predicate: exact match of `GET /restconf` (shape of the
`api_get_root` registration). -/
def cond_get_restconf : String → String → Bool :=
  fun m p => m == "GET" && p == "/restconf"

/-- Sample route predicate: any GET (shape of the `get_file` registration). -/
def cond_get_any : String → String → Bool :=
  fun m _ => m == "GET"

/-- Sample route predicate: POST under the data subtree (shape of the
`api_post` registration). -/
def cond_post_data : String → String → Bool :=
  fun m p => m == "POST" && p.startsWith "/restconf/data"

/-- Sample route table with overlapping predicates and a default handler;
handlers are numbered references. -/
def sampleTable : HandlerList Nat :=
  { handlers := [(cond_get_restconf, 1), (cond_get_any, 2), (cond_post_data, 3)]
    default_handler := some 0 }

/-- Sample route table with no default handler. -/
def sampleTableNoDefault : HandlerList Nat :=
  { handlers := [(cond_get_restconf, 1)]
    default_handler := none }

/-- Sample concrete header lists and connection states. -/
def hdrsGet : Headers := [(":method", "GET"), (":path", "/restconf")]

def hdrsGetQ : Headers := [(":method", "GET"), (":path", "/restconf?depth=1")]

def hdrsGetUnknown : Headers := [(":method", "GET"), (":path", "/unknown/path")]

def hdrsPut : Headers := [(":method", "PUT"), (":path", "/restconf/data/x")]

def hdrsPutQ : Headers :=
  [(":method", "PUT"), (":path", "/restconf/data/x?insert=last")]

def hdrsPost : Headers := [(":method", "POST"), (":path", "/restconf/data/y")]

def hdrsPatch : Headers := [(":method", "PATCH"), (":path", "/x")]

def hdrsNoMethod : Headers := [(":path", "/x")]

def hdrsNoPath : Headers := [(":method", "GET")]

def stEmpty : H2Protocol Nat := { reqs_waiting_upload := [] }

def stPending : H2Protocol Nat := { reqs_waiting_upload := [(1, odict hdrsPut)] }

section Helpers

theorem find?_first_of {γ : Type} (f : γ → Bool) (pre post : List γ) (x : γ)
    (hpre : ∀ e ∈ pre, f e = false) (hx : f x = true) :
    (pre ++ x :: post).find? f = some x := by
  induction pre with
  | nil => simpa using List.find?_cons_of_pos post hx
  | cons a l ih =>
    have ha : f a = false := hpre a (by simp)
    rw [List.cons_append, List.find?_cons_of_neg _ (by simp [ha])]
    exact ih (fun e he => hpre e (by simp [he]))

theorem get_handler_of_first (hl : HandlerList H) (method path : String)
    (pre post : List ((String → String → Bool) × H))
    (c : String → String → Bool) (h : H)
    (hsplit : hl.handlers = pre ++ (c, h) :: post)
    (hpre : ∀ e ∈ pre, e.1 method path = false)
    (hc : c method path = true) :
    get_handler hl method path = some h := by
  unfold get_handler
  rw [hsplit, find?_first_of _ pre post (c, h) (fun e he => hpre e he) hc]

theorem get_handler_of_no_match (hl : HandlerList H) (method path : String)
    (hall : ∀ e ∈ hl.handlers, e.1 method path = false) :
    get_handler hl method path = hl.default_handler := by
  unfold get_handler
  rw [List.find?_eq_none.mpr (fun x hx => by simp [hall x hx])]

variable {α β : Type} [BEq α]

theorem alookup_eq_none_of (m : List (α × β)) (k : α)
    (h : ∀ p ∈ m, (p.1 == k) = false) : alookup m k = none := by
  unfold alookup
  rw [List.find?_eq_none.mpr (fun x hx => by simp [h x hx])]
  rfl

theorem alookup_filter_ne (m : List (α × β)) (k : α) :
    alookup (m.filter (fun p => !(p.1 == k))) k = none := by
  apply alookup_eq_none_of
  intro p hp
  simpa using (List.mem_filter.mp hp).2

theorem alookup_map_update [LawfulBEq α] (m : List (α × β)) (k : α) (v : β)
    (hany : m.any (fun p => p.1 == k) = true) :
    alookup (m.map (fun p => if p.1 == k then (k, v) else p)) k = some v := by
  induction m with
  | nil => simp at hany
  | cons p t ih =>
    by_cases hk : (p.1 == k) = true
    · simp only [List.map_cons, if_pos hk]
      unfold alookup
      rw [List.find?_cons_of_pos _ (by simp)]
      rfl
    · simp only [List.map_cons, if_neg hk]
      unfold alookup at ih ⊢
      rw [List.find?_cons_of_neg _ (by simpa using hk)]
      apply ih
      simp only [List.any_cons, Bool.or_eq_true] at hany
      rcases hany with hany | hany
      · exact absurd hany hk
      · exact hany

theorem alookup_append_single [LawfulBEq α] (m : List (α × β)) (k : α) (v : β)
    (hnone : m.any (fun p => p.1 == k) = false) :
    alookup (m ++ [(k, v)]) k = some v := by
  induction m with
  | nil =>
    unfold alookup
    rw [List.nil_append, List.find?_cons_of_pos _ (by simp)]
    rfl
  | cons p t ih =>
    simp only [List.any_cons, Bool.or_eq_false_iff] at hnone
    unfold alookup at ih ⊢
    rw [List.cons_append, List.find?_cons_of_neg _ (by simp [hnone.1])]
    exact ih hnone.2

theorem alookup_ainsert_self [LawfulBEq α] (m : List (α × β)) (k : α) (v : β) :
    alookup (ainsert m k v) k = some v := by
  unfold ainsert
  by_cases hany : m.any (fun p => p.1 == k) = true
  · rw [if_pos hany]
    exact alookup_map_update m k v hany
  · rw [if_neg hany]
    exact alookup_append_single m k v (Bool.not_eq_true _ ▸ Bool.of_not_eq_true hany)

theorem nodup_keys_ainsert [LawfulBEq α] (m : List (α × β)) (k : α) (v : β)
    (h : (m.map Prod.fst).Nodup) :
    ((ainsert m k v).map Prod.fst).Nodup := by
  unfold ainsert
  by_cases hany : m.any (fun p => p.1 == k) = true
  · rw [if_pos hany, List.map_map]
    have hcong : m.map (Prod.fst ∘ fun p => if p.1 == k then (k, v) else p)
        = m.map Prod.fst := by
      apply List.map_congr_left
      intro p _
      by_cases hk : (p.1 == k) = true
      · simp only [Function.comp_apply, if_pos hk]
        exact (eq_of_beq hk).symm
      · simp only [Function.comp_apply, if_neg hk]
    rw [hcong]
    exact h
  · rw [if_neg hany, List.map_append]
    rw [List.nodup_append]
    refine ⟨h, List.nodup_singleton k, ?_⟩
    intro a ha hb
    simp only [List.map_cons, List.map_nil, List.mem_singleton] at hb
    rcases List.mem_map.mp ha with ⟨p, hp, hpk⟩
    apply hany
    apply List.any_eq_true.mpr
    exact ⟨p, hp, by rw [hpk, hb]; simp⟩

omit [BEq α] in
theorem nodup_keys_filter (m : List (α × β)) (f : α × β → Bool)
    (h : (m.map Prod.fst).Nodup) :
    ((m.filter f).map Prod.fst).Nodup :=
  List.Nodup.sublist (List.Sublist.map Prod.fst (List.filter_sublist m)) h

theorem apop_eq_some {α β : Type} [BEq α] (m : List (α × β)) (k : α) (v : β)
    (rest : List (α × β)) (h : apop m k = some (v, rest)) :
    alookup m k = some v ∧ rest = m.filter (fun p => !(p.1 == k)) := by
  unfold apop at h
  cases hl : alookup m k with
  | none => rw [hl] at h; simp at h
  | some w =>
    rw [hl] at h
    simp only [Option.some.injEq, Prod.mk.injEq] at h
    obtain ⟨h1, h2⟩ := h
    subst h1
    exact ⟨rfl, h2.symm⟩

theorem processEvent_req_no_method (tbl : HandlerList H) (st : H2Protocol H)
    (sid : Nat) (hdrs : Headers)
    (hm : alookup (odict hdrs) ":method" = none) :
    processEvent tbl st (.requestReceived sid hdrs) = none := by
  simp only [processEvent, hm]

theorem processEvent_req_put_post (tbl : HandlerList H) (st : H2Protocol H)
    (sid : Nat) (hdrs : Headers) (m : String)
    (hm : alookup (odict hdrs) ":method" = some m)
    (hmeth : m = "PUT" ∨ m = "POST") :
    processEvent tbl st (.requestReceived sid hdrs) =
      some ({ reqs_waiting_upload :=
                ainsert st.reqs_waiting_upload sid (odict hdrs) }, []) := by
  have hng : ¬(m = "GET" ∨ m = "DELETE") := by
    rcases hmeth with h | h <;> subst h <;> decide
  simp only [processEvent, hm]
  rw [if_neg hng, if_pos hmeth]

theorem processEvent_req_get_delete (tbl : HandlerList H) (st : H2Protocol H)
    (sid : Nat) (hdrs : Headers) (m p : String)
    (hm : alookup (odict hdrs) ":method" = some m)
    (hmeth : m = "GET" ∨ m = "DELETE")
    (hp : alookup (odict hdrs) ":path" = some p) :
    processEvent tbl st (.requestReceived sid hdrs) =
      some (st, [match get_handler tbl m (url_path_of p) with
                 | some h => Action.invoke3 h sid (odict hdrs)
                 | none => Action.sendEmpty sid "400" "Bad Request"]) := by
  simp only [processEvent, hm]
  rw [if_pos hmeth]
  simp only [handle_get_delete, hp, hm]
  cases hg : get_handler tbl m (url_path_of p) <;> simp [hg]

theorem processEvent_req_unknown (tbl : HandlerList H) (st : H2Protocol H)
    (sid : Nat) (hdrs : Headers) (m : String)
    (hm : alookup (odict hdrs) ":method" = some m)
    (h1 : ¬(m = "GET" ∨ m = "DELETE")) (h2 : ¬(m = "PUT" ∨ m = "POST")) :
    processEvent tbl st (.requestReceived sid hdrs) =
      some (st, [Action.logWarn ("Unknown http method \"" ++ m ++ "\"")]) := by
  simp only [processEvent, hm]
  rw [if_neg h1, if_neg h2]

theorem http_handle_upload_orphan (tbl : HandlerList H) (st : H2Protocol H)
    (d : Bytes) (sid : Nat)
    (h : alookup st.reqs_waiting_upload sid = none) :
    http_handle_upload tbl st d sid = some (st, []) := by
  simp only [http_handle_upload, apop, h]

theorem handle_get_delete_shape (tbl : HandlerList H) (hdrs : Headers)
    (sid : Nat) (acts : List (Action H))
    (h : handle_get_delete tbl hdrs sid = some acts) :
    (∃ hh, acts = [Action.invoke3 hh sid hdrs]) ∨
      acts = [Action.sendEmpty sid "400" "Bad Request"] := by
  simp only [handle_get_delete] at h
  cases hp : alookup hdrs ":path" with
  | none => rw [hp] at h; simp at h
  | some path =>
    simp only [hp] at h
    cases hm : alookup hdrs ":method" with
    | none => simp only [hm] at h; exact Option.noConfusion h
    | some m =>
      simp only [hm] at h
      cases hg : get_handler tbl m (url_path_of path) with
      | some hh =>
        simp only [hg, Option.some.injEq] at h
        exact Or.inl ⟨hh, h.symm⟩
      | none =>
        simp only [hg, Option.some.injEq] at h
        exact Or.inr h.symm

theorem http_handle_upload_shape (tbl : HandlerList H) (st : H2Protocol H)
    (d : Bytes) (sid : Nat) (st1 : H2Protocol H) (acts : List (Action H))
    (h : http_handle_upload tbl st d sid = some (st1, acts)) :
    (alookup st.reqs_waiting_upload sid = none ∧ st1 = st ∧ acts = []) ∨
      (∃ hdrs, alookup st.reqs_waiting_upload sid = some hdrs ∧
        st1 = { reqs_waiting_upload :=
                  st.reqs_waiting_upload.filter (fun p => !(p.1 == sid)) } ∧
        ((∃ hh, acts = [Action.invoke4 hh sid hdrs d]) ∨
          acts = [Action.sendEmpty sid "400" "Bad Request"])) := by
  simp only [http_handle_upload] at h
  cases hpop : apop st.reqs_waiting_upload sid with
  | none =>
    simp only [hpop, Option.some.injEq, Prod.mk.injEq] at h
    refine Or.inl ⟨?_, h.1.symm, h.2.symm⟩
    unfold apop at hpop
    cases hl : alookup st.reqs_waiting_upload sid with
    | none => rfl
    | some w => rw [hl] at hpop; simp at hpop
  | some pr =>
    obtain ⟨hdrs, rest⟩ := pr
    simp only [hpop] at h
    obtain ⟨hlk, hrest⟩ := apop_eq_some _ _ _ _ hpop
    cases hp : alookup hdrs ":path" with
    | none => simp only [hp] at h; exact Option.noConfusion h
    | some path =>
      simp only [hp] at h
      cases hm : alookup hdrs ":method" with
      | none => simp only [hm] at h; exact Option.noConfusion h
      | some m =>
        simp only [hm] at h
        cases hg : get_handler tbl m (url_path_of path) with
        | some hh =>
          simp only [hg, Option.some.injEq, Prod.mk.injEq] at h
          exact Or.inr ⟨hdrs, hlk, by rw [← h.1, hrest],
            Or.inl ⟨hh, h.2.symm⟩⟩
        | none =>
          simp only [hg, Option.some.injEq, Prod.mk.injEq] at h
          exact Or.inr ⟨hdrs, hlk, by rw [← h.1, hrest], Or.inr h.2.symm⟩

theorem processEvent_stream_of_mem (tbl : HandlerList H) (st : H2Protocol H)
    (ev : H2Event) (st1 : H2Protocol H) (acts : List (Action H))
    (hrun : processEvent tbl st ev = some (st1, acts)) :
    ∀ a ∈ acts, Action.stream a = none ∨ Action.stream a = H2Event.stream ev := by
  cases ev with
  | requestReceived sid hdrs =>
    simp only [processEvent] at hrun
    cases hm : alookup (odict hdrs) ":method" with
    | none => simp only [hm] at hrun; exact Option.noConfusion hrun
    | some m =>
      simp only [hm] at hrun
      by_cases hgd : m = "GET" ∨ m = "DELETE"
      · rw [if_pos hgd] at hrun
        cases hh : handle_get_delete tbl (odict hdrs) sid with
        | none => simp only [hh] at hrun; exact Option.noConfusion hrun
        | some acts0 =>
          simp only [hh, Option.some.injEq, Prod.mk.injEq] at hrun
          rcases handle_get_delete_shape tbl (odict hdrs) sid acts0 hh with
            ⟨h0, hsh⟩ | hsh <;>
          · rw [← hrun.2, hsh]
            intro a ha
            simp only [List.mem_singleton] at ha
            subst ha
            exact Or.inr rfl
      · rw [if_neg hgd] at hrun
        by_cases hpp : m = "PUT" ∨ m = "POST"
        · rw [if_pos hpp] at hrun
          simp only [Option.some.injEq, Prod.mk.injEq] at hrun
          rw [← hrun.2]
          intro a ha
          simp at ha
        · rw [if_neg hpp] at hrun
          simp only [Option.some.injEq, Prod.mk.injEq] at hrun
          rw [← hrun.2]
          intro a ha
          simp only [List.mem_singleton] at ha
          subst ha
          exact Or.inl rfl
  | dataReceived sid d =>
    have hrun' : http_handle_upload tbl st d sid = some (st1, acts) := hrun
    rcases http_handle_upload_shape tbl st d sid st1 acts hrun' with
      ⟨-, -, hacts⟩ | ⟨hdrs, -, -, hacts⟩
    · rw [hacts]; intro a ha; simp at ha
    · rcases hacts with ⟨hh, hacts⟩ | hacts <;>
      · rw [hacts]
        intro a ha
        simp only [List.mem_singleton] at ha
        subst ha
        exact Or.inr rfl
  | remoteSettingsChanged =>
    simp only [processEvent, Option.some.injEq, Prod.mk.injEq] at hrun
    rw [← hrun.2]
    intro a ha
    simp only [List.mem_singleton] at ha
    subst ha
    exact Or.inl rfl

theorem takeWhile_append_stop {γ : Type} (f : γ → Bool) (x : γ)
    (hx : f x = false) :
    ∀ (l t : List γ), (l ++ x :: t).takeWhile f = l.takeWhile f := by
  intro l t
  induction l with
  | nil => simp [List.takeWhile_cons, hx]
  | cons a l ih =>
    rw [List.cons_append, List.takeWhile_cons, List.takeWhile_cons]
    by_cases ha : f a = true
    · rw [if_pos ha, if_pos ha, ih]
    · rw [if_neg ha, if_neg ha]

theorem url_path_of_append_query (p q : String) :
    url_path_of (p ++ "?" ++ q) = url_path_of p := by
  unfold url_path_of
  have hdata : (p ++ "?" ++ q).data = p.data ++ '?' :: q.data := by
    rw [String.data_append, String.data_append, List.append_assoc]
    rfl
  rw [hdata, takeWhile_append_stop _ '?' (by decide) p.data q.data]

theorem invoke4_only_from_upload (tbl : HandlerList H) (st : H2Protocol H)
    (ev : H2Event) (st1 : H2Protocol H) (acts : List (Action H))
    (hh : H) (sid : Nat) (hd : Headers) (d : Bytes)
    (hrun : processEvent tbl st ev = some (st1, acts))
    (hmem : Action.invoke4 hh sid hd d ∈ acts) :
    ev = H2Event.dataReceived sid d ∧
      alookup st.reqs_waiting_upload sid = some hd ∧
      alookup st1.reqs_waiting_upload sid = none := by
  cases ev with
  | requestReceived sid0 hdrs =>
    exfalso
    simp only [processEvent] at hrun
    cases hm : alookup (odict hdrs) ":method" with
    | none => simp only [hm] at hrun; exact Option.noConfusion hrun
    | some m =>
      simp only [hm] at hrun
      by_cases hgd : m = "GET" ∨ m = "DELETE"
      · rw [if_pos hgd] at hrun
        cases hg : handle_get_delete tbl (odict hdrs) sid0 with
        | none => simp only [hg] at hrun; exact Option.noConfusion hrun
        | some acts0 =>
          simp only [hg, Option.some.injEq, Prod.mk.injEq] at hrun
          rcases handle_get_delete_shape tbl (odict hdrs) sid0 acts0 hg with
            ⟨h0, hsh⟩ | hsh <;>
          · rw [← hrun.2, hsh] at hmem
            simp at hmem
      · rw [if_neg hgd] at hrun
        by_cases hpp : m = "PUT" ∨ m = "POST"
        · rw [if_pos hpp] at hrun
          simp only [Option.some.injEq, Prod.mk.injEq] at hrun
          rw [← hrun.2] at hmem
          simp at hmem
        · rw [if_neg hpp] at hrun
          simp only [Option.some.injEq, Prod.mk.injEq] at hrun
          rw [← hrun.2] at hmem
          simp at hmem
  | dataReceived sid0 d0 =>
    have hrun2 : http_handle_upload tbl st d0 sid0 = some (st1, acts) := hrun
    rcases http_handle_upload_shape tbl st d0 sid0 st1 acts hrun2 with
      ⟨-, -, hacts⟩ | ⟨hdrs, hlk, hst, hacts⟩
    · rw [hacts] at hmem; simp at hmem
    · rcases hacts with ⟨hh0, hacts⟩ | hacts
      · rw [hacts] at hmem
        simp only [List.mem_singleton] at hmem
        injection hmem with e1 e2 e3 e4
        refine ⟨by rw [e2, e4], ?_, ?_⟩
        · rw [e2, e3]; exact hlk
        · rw [hst, e2]; exact alookup_filter_ne _ _
      · rw [hacts] at hmem; simp at hmem
  | remoteSettingsChanged =>
    simp only [processEvent, Option.some.injEq, Prod.mk.injEq] at hrun
    rw [← hrun.2] at hmem
    simp at hmem

theorem processEvent_preserves_nodup (tbl : HandlerList H) (st : H2Protocol H)
    (ev : H2Event) (st1 : H2Protocol H) (acts : List (Action H))
    (hn : (st.reqs_waiting_upload.map Prod.fst).Nodup)
    (hrun : processEvent tbl st ev = some (st1, acts)) :
    (st1.reqs_waiting_upload.map Prod.fst).Nodup := by
  cases ev with
  | requestReceived sid hdrs =>
    simp only [processEvent] at hrun
    cases hm : alookup (odict hdrs) ":method" with
    | none => simp only [hm] at hrun; exact Option.noConfusion hrun
    | some m =>
      simp only [hm] at hrun
      by_cases hgd : m = "GET" ∨ m = "DELETE"
      · rw [if_pos hgd] at hrun
        cases hg : handle_get_delete tbl (odict hdrs) sid with
        | none => simp only [hg] at hrun; exact Option.noConfusion hrun
        | some acts0 =>
          simp only [hg, Option.some.injEq, Prod.mk.injEq] at hrun
          rw [← hrun.1]
          exact hn
      · rw [if_neg hgd] at hrun
        by_cases hpp : m = "PUT" ∨ m = "POST"
        · rw [if_pos hpp] at hrun
          simp only [Option.some.injEq, Prod.mk.injEq] at hrun
          rw [← hrun.1]
          exact nodup_keys_ainsert _ _ _ hn
        · rw [if_neg hpp] at hrun
          simp only [Option.some.injEq, Prod.mk.injEq] at hrun
          rw [← hrun.1]
          exact hn
  | dataReceived sid d =>
    have hrun2 : http_handle_upload tbl st d sid = some (st1, acts) := hrun
    rcases http_handle_upload_shape tbl st d sid st1 acts hrun2 with
      ⟨-, hst, -⟩ | ⟨hdrs, -, hst, -⟩
    · rw [hst]; exact hn
    · rw [hst]; exact nodup_keys_filter _ _ hn
  | remoteSettingsChanged =>
    simp only [processEvent, Option.some.injEq, Prod.mk.injEq] at hrun
    rw [← hrun.1]
    exact hn

theorem processEvents_no_touch (tbl : HandlerList H) (s : Nat) :
    ∀ (evs : List H2Event) (st st1 : H2Protocol H) (acts : List (Action H)),
    (∀ ev ∈ evs, H2Event.stream ev = some s →
      ∃ hdrs m, ev = H2Event.requestReceived s hdrs ∧
        alookup (odict hdrs) ":method" = some m ∧ (m = "PUT" ∨ m = "POST")) →
    processEvents tbl st evs = some (st1, acts) →
    ∀ a ∈ acts, Action.stream a ≠ some s := by
  intro evs
  induction evs with
  | nil =>
    intro st st1 acts _ hrun
    simp only [processEvents, Option.some.injEq, Prod.mk.injEq] at hrun
    rw [← hrun.2]
    intro a ha
    simp at ha
  | cons ev rest ih =>
    intro st st1 acts hall hrun
    simp only [processEvents] at hrun
    cases heq : processEvent tbl st ev with
    | none => simp only [heq] at hrun; exact Option.noConfusion hrun
    | some pr =>
      obtain ⟨stA, actsA⟩ := pr
      simp only [heq] at hrun
      cases heq2 : processEvents tbl stA rest with
      | none => simp only [heq2] at hrun; exact Option.noConfusion hrun
      | some pr2 =>
        obtain ⟨stB, actsB⟩ := pr2
        simp only [heq2, Option.some.injEq, Prod.mk.injEq] at hrun
        rw [← hrun.2]
        intro a ha hstream
        rcases List.mem_append.mp ha with haA | haB
        · rcases processEvent_stream_of_mem tbl st ev stA actsA heq a haA with
            h0 | h0
          · rw [hstream] at h0; exact Option.noConfusion h0
          · have hevs : H2Event.stream ev = some s := by
              rw [← h0]; exact hstream
            obtain ⟨hdrs, m, hev1, hm, hmeth⟩ :=
              hall ev (List.mem_cons_self ev rest) hevs
            subst hev1
            have hpp := processEvent_req_put_post tbl st s hdrs m hm hmeth
            rw [hpp] at heq
            simp only [Option.some.injEq, Prod.mk.injEq] at heq
            rw [← heq.2] at haA
            simp at haA
        · exact ih stA stB actsB
            (fun e he hs => hall e (List.mem_cons_of_mem ev he) hs) heq2 a haB
            hstream

end Helpers

example : url_path_of "/data/x?depth=1" = "/data/x" := by decide
example : url_path_of "/data/x" = "/data/x" := by decide
example : (send_empty "srv" 1 "400" "Bad Request" true).body
    = "400 Bad Request\n" := by decide

/-- Claim C1: for every route table and (method, path), `get_handler`
returns the handler of the earliest-registered entry whose predicate
accepts (method, path), scanning predicates strictly in registration order
(registration appends, so list order is registration order) regardless of
how many later predicates would also match; if no predicate matches it
returns the default handler. -/
theorem claim_C1_first_match_resolution (H : Type) :
    (∀ (hl : HandlerList H) (method path : String)
        (pre post : List ((String → String → Bool) × H))
        (c : String → String → Bool) (h : H),
      hl.handlers = pre ++ (c, h) :: post →
      (∀ e ∈ pre, e.1 method path = false) →
      c method path = true →
      get_handler hl method path = some h) ∧
    (∀ (hl : HandlerList H) (method path : String),
      (∀ e ∈ hl.handlers, e.1 method path = false) →
      get_handler hl method path = hl.default_handler) ∧
    (∀ (hl : HandlerList H) (c : String → String → Bool) (h : H),
      (register_handler hl c h).handlers = hl.handlers ++ [(c, h)]) :=
  ⟨fun hl method path pre post c h h1 h2 h3 =>
      get_handler_of_first hl method path pre post c h h1 h2 h3,
   fun hl method path hall => get_handler_of_no_match hl method path hall,
   fun _ _ _ => rfl⟩

theorem claim_C1_first_match_resolution_witness :
    get_handler sampleTable "GET" "/restconf" = some 1 ∧
    get_handler sampleTable "GET" "/other" = some 2 ∧
    get_handler sampleTable "PUT" "/restconf" = sampleTable.default_handler :=
  ⟨(claim_C1_first_match_resolution Nat).1 sampleTable "GET" "/restconf"
      [] [(cond_get_any, 2), (cond_post_data, 3)] cond_get_restconf 1 rfl
      (fun e he => absurd he (List.not_mem_nil e)) (by decide),
   (claim_C1_first_match_resolution Nat).1 sampleTable "GET" "/other"
      [(cond_get_restconf, 1)] [(cond_post_data, 3)] cond_get_any 2 rfl
      (by intro e he
          simp only [List.mem_singleton] at he
          subst he
          decide)
      (by decide),
   (claim_C1_first_match_resolution Nat).2.1 sampleTable "PUT" "/restconf"
      (by intro e he
          simp only [sampleTable] at he
          simp only [List.mem_cons, List.not_mem_nil, or_false] at he
          rcases he with rfl | rfl | rfl <;> decide)⟩

/-- Claim C2: for a PUT/POST request-received event the handler is not
invoked and the headers are only buffered; a four-argument (body) handler
invocation can only arise from a body-data event whose stream id had a
pending request, which it consumes (so at most one invocation per buffered
request); and on a trace whose only events for a given stream id are
PUT/POST request-received events (no body-data event for that id ever
occurs), no action at all is addressed to that stream. -/
theorem claim_C2_put_post_deferred_dispatch (H : Type) :
    (∀ (tbl : HandlerList H) (st : H2Protocol H) (sid : Nat) (hdrs : Headers)
        (m : String),
      alookup (odict hdrs) ":method" = some m → (m = "PUT" ∨ m = "POST") →
      processEvent tbl st (H2Event.requestReceived sid hdrs) =
        some ({ reqs_waiting_upload :=
                  ainsert st.reqs_waiting_upload sid (odict hdrs) }, [])) ∧
    (∀ (tbl : HandlerList H) (st : H2Protocol H) (ev : H2Event)
        (st1 : H2Protocol H) (acts : List (Action H)) (hh : H) (sid : Nat)
        (hd : Headers) (d : Bytes),
      processEvent tbl st ev = some (st1, acts) →
      Action.invoke4 hh sid hd d ∈ acts →
      ev = H2Event.dataReceived sid d ∧
        alookup st.reqs_waiting_upload sid = some hd ∧
        alookup st1.reqs_waiting_upload sid = none) ∧
    (∀ (tbl : HandlerList H) (s : Nat) (evs : List H2Event)
        (st st1 : H2Protocol H) (acts : List (Action H)),
      (∀ ev ∈ evs, H2Event.stream ev = some s →
        ∃ hdrs m, ev = H2Event.requestReceived s hdrs ∧
          alookup (odict hdrs) ":method" = some m ∧
          (m = "PUT" ∨ m = "POST")) →
      processEvents tbl st evs = some (st1, acts) →
      ∀ a ∈ acts, Action.stream a ≠ some s) :=
  ⟨fun tbl st sid hdrs m hm hmeth =>
      processEvent_req_put_post tbl st sid hdrs m hm hmeth,
   fun tbl st ev st1 acts hh sid hd d h1 h2 =>
      invoke4_only_from_upload tbl st ev st1 acts hh sid hd d h1 h2,
   fun tbl s evs st st1 acts hall hrun =>
      processEvents_no_touch tbl s evs st st1 acts hall hrun⟩

theorem claim_C2_put_post_deferred_dispatch_witness :
    processEvent sampleTable stEmpty (H2Event.requestReceived 1 hdrsPut) =
      some ({ reqs_waiting_upload :=
                ainsert stEmpty.reqs_waiting_upload 1 (odict hdrsPut) }, []) ∧
    (H2Event.dataReceived 1 [65] = H2Event.dataReceived 1 [65] ∧
      alookup stPending.reqs_waiting_upload 1 = some (odict hdrsPut) ∧
      alookup (stEmpty : H2Protocol Nat).reqs_waiting_upload 1 = none) ∧
    Action.stream (Action.invoke3 1 2 (odict hdrsGet)) ≠ some 1 :=
  ⟨(claim_C2_put_post_deferred_dispatch Nat).1 sampleTable stEmpty 1 hdrsPut
      "PUT" rfl (Or.inl rfl),
   (claim_C2_put_post_deferred_dispatch Nat).2.1 sampleTable stPending
      (H2Event.dataReceived 1 [65]) stEmpty
      [Action.invoke4 0 1 (odict hdrsPut) [65]]
      0 1 (odict hdrsPut) [65] (by rfl) (List.mem_singleton.mpr rfl),
   (claim_C2_put_post_deferred_dispatch Nat).2.2 sampleTable 1
      [H2Event.requestReceived 1 hdrsPut, H2Event.requestReceived 2 hdrsGet]
      stEmpty ⟨[(1, odict hdrsPut)]⟩ [Action.invoke3 1 2 (odict hdrsGet)]
      (by intro ev hev hs
          simp only [List.mem_cons, List.not_mem_nil, or_false] at hev
          rcases hev with rfl | rfl
          · exact ⟨hdrsPut, "PUT", rfl, rfl, Or.inl rfl⟩
          · simp [H2Event.stream] at hs)
      (by rfl) (Action.invoke3 1 2 (odict hdrsGet)) (List.mem_singleton.mpr rfl)⟩

/-- Claim C3: a GET/DELETE request-received event resolves the route
immediately and synchronously emits exactly one action: the resolved
handler applied to (session, stream id, headers), or a "400 Bad Request"
empty response when no predicate matches and no default handler exists;
the pending-request state is unchanged and no body event is waited for. -/
theorem claim_C3_get_delete_immediate_dispatch (H : Type)
    (tbl : HandlerList H) (st : H2Protocol H) (sid : Nat) (hdrs : Headers)
    (m p : String)
    (hm : alookup (odict hdrs) ":method" = some m)
    (hmeth : m = "GET" ∨ m = "DELETE")
    (hp : alookup (odict hdrs) ":path" = some p) :
    processEvent tbl st (H2Event.requestReceived sid hdrs) =
      some (st, [match get_handler tbl m (url_path_of p) with
                 | some h => Action.invoke3 h sid (odict hdrs)
                 | none => Action.sendEmpty sid "400" "Bad Request"]) :=
  processEvent_req_get_delete tbl st sid hdrs m p hm hmeth hp

theorem claim_C3_get_delete_immediate_dispatch_witness :
    processEvent sampleTable stEmpty (H2Event.requestReceived 5 hdrsGet) =
      some (stEmpty, [Action.invoke3 1 5 (odict hdrsGet)]) ∧
    processEvent sampleTableNoDefault stEmpty
        (H2Event.requestReceived 5 hdrsGetUnknown) =
      some (stEmpty, [Action.sendEmpty 5 "400" "Bad Request"]) :=
  ⟨claim_C3_get_delete_immediate_dispatch Nat sampleTable stEmpty 5 hdrsGet
      "GET" "/restconf" rfl (Or.inl rfl) rfl,
   claim_C3_get_delete_immediate_dispatch Nat sampleTableNoDefault stEmpty 5
      hdrsGetUnknown "GET" "/unknown/path" rfl (Or.inl rfl) rfl⟩

/-- Claim C4: appending a query-string suffix never changes which handler
route resolution selects: `get_handler` on the stripped path is invariant
under `p ++ "?" ++ q`, and both the immediate (GET/DELETE) and the
deferred (PUT/POST upload) dispatch paths of a request whose `:path` is
`p ++ "?" ++ q` are governed by `get_handler` at the query-free path `p`. -/
theorem claim_C4_query_string_irrelevant (H : Type) :
    (∀ (tbl : HandlerList H) (m p q : String),
      get_handler tbl m (url_path_of (p ++ "?" ++ q)) =
        get_handler tbl m (url_path_of p)) ∧
    (∀ (tbl : HandlerList H) (hdrs : Headers) (sid : Nat) (p q m : String),
      alookup hdrs ":path" = some (p ++ "?" ++ q) →
      alookup hdrs ":method" = some m →
      handle_get_delete tbl hdrs sid =
        some [match get_handler tbl m (url_path_of p) with
              | some h => Action.invoke3 h sid hdrs
              | none => Action.sendEmpty sid "400" "Bad Request"]) ∧
    (∀ (tbl : HandlerList H) (st : H2Protocol H) (sid : Nat) (d : Bytes)
        (hdrs : Headers) (p q m : String),
      alookup st.reqs_waiting_upload sid = some hdrs →
      alookup hdrs ":path" = some (p ++ "?" ++ q) →
      alookup hdrs ":method" = some m →
      http_handle_upload tbl st d sid =
        some ({ reqs_waiting_upload :=
                  st.reqs_waiting_upload.filter (fun e => !(e.1 == sid)) },
              [match get_handler tbl m (url_path_of p) with
               | some h => Action.invoke4 h sid hdrs d
               | none => Action.sendEmpty sid "400" "Bad Request"])) := by
  refine ⟨?_, ?_, ?_⟩
  · intro tbl m p q
    rw [url_path_of_append_query]
  · intro tbl hdrs sid p q m hp hm
    simp only [handle_get_delete, hp, hm, url_path_of_append_query]
    cases hg : get_handler tbl m (url_path_of p) <;> simp [hg]
  · intro tbl st sid d hdrs p q m hlk hp hm
    simp only [http_handle_upload, apop, hlk, hp, hm, url_path_of_append_query]
    cases hg : get_handler tbl m (url_path_of p) <;> simp [hg]

theorem claim_C4_query_string_irrelevant_witness :
    get_handler sampleTable "GET"
        (url_path_of ("/restconf" ++ "?" ++ "depth=1")) =
      get_handler sampleTable "GET" (url_path_of "/restconf") ∧
    handle_get_delete sampleTable hdrsGetQ 7 =
      some [Action.invoke3 1 7 hdrsGetQ] ∧
    http_handle_upload sampleTable ⟨[(3, hdrsPutQ)]⟩ [66] 3 =
      some (⟨[]⟩, [Action.invoke4 0 3 hdrsPutQ [66]]) :=
  ⟨(claim_C4_query_string_irrelevant Nat).1 sampleTable "GET" "/restconf"
      "depth=1",
   (claim_C4_query_string_irrelevant Nat).2.1 sampleTable hdrsGetQ 7
      "/restconf" "depth=1" "GET" rfl rfl,
   (claim_C4_query_string_irrelevant Nat).2.2 sampleTable ⟨[(3, hdrsPutQ)]⟩ 3
      [66] hdrsPutQ "/restconf/data/x" "insert=last" "PUT" rfl rfl rfl⟩

/-- Claim C5: a body-data event whose stream id has no pending request is a
silent no-op: the state (in particular the pending-request map) is
unchanged and no action (no handler invocation, no response) is emitted. -/
theorem claim_C5_orphaned_body_noop (H : Type) (tbl : HandlerList H)
    (st : H2Protocol H) (sid : Nat) (d : Bytes)
    (h : alookup st.reqs_waiting_upload sid = none) :
    processEvent tbl st (H2Event.dataReceived sid d) = some (st, []) :=
  http_handle_upload_orphan tbl st d sid h

theorem claim_C5_orphaned_body_noop_witness :
    processEvent sampleTable stEmpty (H2Event.dataReceived 9 [1]) =
      some (stEmpty, []) :=
  claim_C5_orphaned_body_noop Nat sampleTable stEmpty 9 [1] rfl

/-- Claim C6: `send_empty` emits exactly the headers status,
content-type "text/plain", content-length equal to the body byte length,
and the configured server-identification header; when configured to
include a body the body is `code ++ " " ++ msg ++ "\n"` (empty otherwise),
and the stream is ended; in particular status "400" with message
"Bad Request" carries body "400 Bad Request\n". -/
theorem claim_C6_send_empty_format (serverName : String) (sid : Nat)
    (code msg : String) :
    (send_empty serverName sid code msg true).headers =
      [(":status", HVal.s code),
       ("content-type", HVal.s "text/plain"),
       ("content-length",
         HVal.n (send_empty serverName sid code msg true).body.utf8ByteSize),
       ("server", HVal.s serverName)] ∧
    (send_empty serverName sid code msg true).body =
      code ++ " " ++ msg ++ "\n" ∧
    (send_empty serverName sid code msg false).body = "" ∧
    (send_empty serverName sid code msg true).endStream = true ∧
    (send_empty serverName sid code msg true).streamId = sid ∧
    (send_empty serverName sid "400" "Bad Request" true).body =
      "400 Bad Request\n" :=
  ⟨rfl, rfl, rfl, rfl, rfl, rfl⟩

/-- Claim C7: if no registered predicate matches (method, path) and no
default handler is set, `get_handler` returns none; and registering a
default a second time silently replaces the earlier one, so at most one
default is ever in effect. -/
theorem claim_C7_no_match_no_default (H : Type) :
    (∀ (hl : HandlerList H) (m p : String),
      (∀ e ∈ hl.handlers, e.1 m p = false) →
      hl.default_handler = none →
      get_handler hl m p = none) ∧
    (∀ (hl : HandlerList H) (h1 h2 : H),
      register_default_handler (register_default_handler hl h1) h2 =
        register_default_handler hl h2) :=
  ⟨fun hl m p hall hdef => (get_handler_of_no_match hl m p hall).trans hdef,
   fun _ _ _ => rfl⟩

theorem claim_C7_no_match_no_default_witness :
    get_handler sampleTableNoDefault "GET" "/nope" = none ∧
    register_default_handler (register_default_handler sampleTableNoDefault 5)
        6 = register_default_handler sampleTableNoDefault 6 :=
  ⟨(claim_C7_no_match_no_default Nat).1 sampleTableNoDefault "GET" "/nope"
      (by intro e he
          simp only [sampleTableNoDefault, List.mem_singleton] at he
          subst he
          decide) rfl,
   (claim_C7_no_match_no_default Nat).2 sampleTableNoDefault 5 6⟩

/-- Claim C8: a request-received event whose method is none of GET, DELETE,
PUT, POST only produces the warning log line; the state (in particular the
pending-request map) is unchanged and no handler runs and no response is
emitted for that stream. -/
theorem claim_C8_unknown_method_logged_only (H : Type) (tbl : HandlerList H)
    (st : H2Protocol H) (sid : Nat) (hdrs : Headers) (m : String)
    (hm : alookup (odict hdrs) ":method" = some m)
    (h1 : m ≠ "GET") (h2 : m ≠ "DELETE") (h3 : m ≠ "PUT") (h4 : m ≠ "POST") :
    processEvent tbl st (H2Event.requestReceived sid hdrs) =
      some (st, [Action.logWarn ("Unknown http method \"" ++ m ++ "\"")]) :=
  processEvent_req_unknown tbl st sid hdrs m hm
    (fun hor => hor.elim h1 h2) (fun hor => hor.elim h3 h4)

theorem claim_C8_unknown_method_logged_only_witness :
    processEvent sampleTable stEmpty (H2Event.requestReceived 4 hdrsPatch) =
      some (stEmpty, [Action.logWarn "Unknown http method \"PATCH\""]) :=
  claim_C8_unknown_method_logged_only Nat sampleTable stEmpty 4 hdrsPatch
    "PATCH" rfl (by decide) (by decide) (by decide) (by decide)

/-- Claim C9: missing pseudo-headers make event processing fail with an
uncaught dictionary-lookup exception (modelled as a `none` result) rather
than emit a response or no-op: a request-received event with no ":method",
a routed GET/DELETE header set with no ":path", and a buffered upload whose
stored headers lack ":path" all raise. -/
theorem claim_C9_missing_pseudo_header_raises (H : Type) :
    (∀ (tbl : HandlerList H) (st : H2Protocol H) (sid : Nat) (hdrs : Headers),
      alookup (odict hdrs) ":method" = none →
      processEvent tbl st (H2Event.requestReceived sid hdrs) = none) ∧
    (∀ (tbl : HandlerList H) (hdrs : Headers) (sid : Nat),
      alookup hdrs ":path" = none →
      handle_get_delete tbl hdrs sid = none) ∧
    (∀ (tbl : HandlerList H) (st : H2Protocol H) (sid : Nat) (d : Bytes)
        (hdrs : Headers),
      alookup st.reqs_waiting_upload sid = some hdrs →
      alookup hdrs ":path" = none →
      http_handle_upload tbl st d sid = none) := by
  refine ⟨?_, ?_, ?_⟩
  · intro tbl st sid hdrs hm
    exact processEvent_req_no_method tbl st sid hdrs hm
  · intro tbl hdrs sid hp
    simp only [handle_get_delete, hp]
  · intro tbl st sid d hdrs hlk hp
    simp only [http_handle_upload, apop, hlk, hp]

theorem claim_C9_missing_pseudo_header_raises_witness :
    processEvent sampleTable stEmpty (H2Event.requestReceived 3 hdrsNoMethod)
      = none ∧
    handle_get_delete sampleTable hdrsNoPath 2 = none ∧
    http_handle_upload sampleTable ⟨[(2, hdrsNoPath)]⟩ [0] 2 = none :=
  ⟨(claim_C9_missing_pseudo_header_raises Nat).1 sampleTable stEmpty 3
      hdrsNoMethod rfl,
   (claim_C9_missing_pseudo_header_raises Nat).2.1 sampleTable hdrsNoPath 2
      rfl,
   (claim_C9_missing_pseudo_header_raises Nat).2.2 sampleTable
      ⟨[(2, hdrsNoPath)]⟩ 2 [0] hdrsNoPath rfl rfl⟩

/-- Claim C10: every event preserves the invariant that each stream id has
at most one pending request (no duplicate keys in the map); and a second
PUT/POST request-received event for an already-pending stream id silently
replaces the stored headers with the new ones (the map now holds the new
headers for that id) while emitting no action, so the replaced headers are
never dispatched and never produce a response. -/
theorem claim_C10_pending_uniqueness_and_replacement (H : Type) :
    (∀ (tbl : HandlerList H) (st st1 : H2Protocol H) (ev : H2Event)
        (acts : List (Action H)),
      (st.reqs_waiting_upload.map Prod.fst).Nodup →
      processEvent tbl st ev = some (st1, acts) →
      (st1.reqs_waiting_upload.map Prod.fst).Nodup) ∧
    (∀ (tbl : HandlerList H) (st : H2Protocol H) (sid : Nat)
        (hdrs old : Headers) (m : String),
      alookup st.reqs_waiting_upload sid = some old →
      alookup (odict hdrs) ":method" = some m → (m = "PUT" ∨ m = "POST") →
      processEvent tbl st (H2Event.requestReceived sid hdrs) =
        some ({ reqs_waiting_upload :=
                  ainsert st.reqs_waiting_upload sid (odict hdrs) }, []) ∧
      alookup (ainsert st.reqs_waiting_upload sid (odict hdrs)) sid =
        some (odict hdrs)) :=
  ⟨fun tbl st st1 ev acts hn hrun =>
      processEvent_preserves_nodup tbl st ev st1 acts hn hrun,
   fun tbl st sid hdrs _ m _ hm hmeth =>
      ⟨processEvent_req_put_post tbl st sid hdrs m hm hmeth,
       alookup_ainsert_self st.reqs_waiting_upload sid (odict hdrs)⟩⟩

theorem claim_C10_pending_uniqueness_and_replacement_witness :
    (((⟨ainsert stPending.reqs_waiting_upload 1 (odict hdrsPost)⟩ :
        H2Protocol Nat).reqs_waiting_upload.map Prod.fst).Nodup) ∧
    (processEvent sampleTable stPending (H2Event.requestReceived 1 hdrsPost) =
        some ({ reqs_waiting_upload :=
                  ainsert stPending.reqs_waiting_upload 1 (odict hdrsPost) },
              []) ∧
      alookup (ainsert stPending.reqs_waiting_upload 1 (odict hdrsPost)) 1 =
        some (odict hdrsPost)) :=
  ⟨(claim_C10_pending_uniqueness_and_replacement Nat).1 sampleTable stPending
      ⟨ainsert stPending.reqs_waiting_upload 1 (odict hdrsPost)⟩
      (H2Event.requestReceived 1 hdrsPost) [] (by decide) (by rfl),
   (claim_C10_pending_uniqueness_and_replacement Nat).2 sampleTable stPending
      1 hdrsPost (odict hdrsPut) "POST" rfl rfl (Or.inr rfl)⟩


end RestServer
